import Mathlib

/-!
Verification development for `convert.py` of the mermaid-tools repository:
a converter from the Mermaid "gantt" mini-language to a draw.io (mxGraph)
cell model.  The Python source is shallowly embedded below:

* Python `datetime` values are modelled as integer day numbers (days since
  1970-01-01); the ambient `datetime.now()` read is passed explicitly as a
  `now : Int` parameter.  All date arithmetic the converter performs is
  whole-day arithmetic, which the day-number model captures exactly.
* Python code that can raise (`int(...)`, `datetime.fromisoformat`) is
  modelled with `Option` / `Except String`; an `Except.error` value of the
  embedding corresponds to an uncaught Python exception.
* Strings are processed through explicit character-list functions mirroring
  the Python string methods used by the source (ASCII range, which is the
  range the converter's grammar and test inputs exercise).
-/

namespace Mermaid

/-- Whitespace recognised by Python's default `str.strip` / `str.split` and
by the regex class used in `TASK_RE` (ASCII range). -/
def pyIsSpace (c : Char) : Bool :=
  c = ' ' || c = '\t' || c = '\n' || c = '\r' || c = '\x0b' || c = '\x0c'

/-- Remove characters satisfying `p` from both ends of a character list. -/
def trimBy (p : Char → Bool) (l : List Char) : List Char :=
  ((l.dropWhile p).reverse.dropWhile p).reverse

/-- Python `str.strip()` (no argument: whitespace on both ends). -/
def pstrip (s : String) : String := ⟨trimBy pyIsSpace s.data⟩

/-- Python `str.rstrip()` (trailing whitespace). -/
def prstrip (s : String) : String := ⟨(s.data.reverse.dropWhile pyIsSpace).reverse⟩

/-- Python `str.strip(",")` (commas on both ends). -/
def stripCommas (s : String) : String := ⟨trimBy (fun c => c = ',') s.data⟩

/-- ASCII lower-casing of one character (the range Python `str.lower`
affects on the converter's ASCII keywords). -/
def asciiLower (c : Char) : Char :=
  if 'A' ≤ c && c ≤ 'Z' then Char.ofNat (c.toNat + 32) else c

/-- Python `str.lower()` on ASCII text. -/
def pylower (s : String) : String := ⟨s.data.map asciiLower⟩

/-- `prefixL p l` : the character list `p` is a prefix of `l`
(recursion on the pattern `p`). -/
def prefixL : List Char → List Char → Bool
  | [], _ => true
  | b :: ps, l =>
    match l with
    | [] => false
    | a :: ls => a = b && prefixL ps ls

/-- `startsWithL l p` : `p` is a prefix of `l` (Python `str.startswith`). -/
def startsWithL (l p : List Char) : Bool := prefixL p l

/-- Python `str.startswith`. -/
def pyStartsWith (s p : String) : Bool := startsWithL s.data p.data

/-- Python `str.endswith`. -/
def pyEndsWith (s p : String) : Bool := startsWithL s.data.reverse p.data.reverse

/-- Python `s[:-1]`. -/
def dropLastStr (s : String) : String := ⟨s.data.dropLast⟩

/-- Python `s[n:]` (drop the first `n` characters). -/
def dropStr (n : Nat) (s : String) : String := ⟨s.data.drop n⟩

/-- Accumulator loop of `pySplit`. -/
def splitWsGo : List Char → List Char → List String
  | [], cur => if cur.isEmpty then [] else [⟨cur.reverse⟩]
  | c :: rest, cur =>
    if pyIsSpace c then
      if cur.isEmpty then splitWsGo rest []
      else ⟨cur.reverse⟩ :: splitWsGo rest []
    else splitWsGo rest (c :: cur)

/-- Python `str.split()` with no argument: split on whitespace runs,
discarding empty fields. -/
def pySplit (s : String) : List String := splitWsGo s.data []

/-- Split a character list at the first occurrence of `sep`; `none` when
`sep` does not occur. -/
def splitFirst (sep : Char) : List Char → Option (List Char × List Char)
  | [] => none
  | c :: t =>
    if c = sep then some ([], t)
    else (splitFirst sep t).map (fun p => (c :: p.1, p.2))

/-- ASCII decimal digit test (the `\d` class on the converter's inputs). -/
def isDigitChar (c : Char) : Bool := '0' ≤ c && c ≤ '9'

/-- Validity of the digit run accepted by Python `int(str)`: digits with
single underscores allowed between digits.  The flag records whether a
digit is mandatory at the current position (at the start and right after
an underscore). -/
def udOk : Bool → List Char → Bool
  | mustD, [] => !mustD
  | mustD, c :: rest =>
    if isDigitChar c then udOk false rest
    else if c = '_' then (if mustD then false else udOk true rest)
    else false

/-- Numeric value of a digit list. -/
def digitsVal (l : List Char) : Nat :=
  l.foldl (fun a c => 10 * a + (c.toNat - 48)) 0

/-- Sign handling of Python `int(str)` after whitespace stripping. -/
def pyIntCore : List Char → Option Int
  | '+' :: r =>
    if udOk true r then some (digitsVal (r.filter (fun c => c ≠ '_'))) else none
  | '-' :: r =>
    if udOk true r then some (-(digitsVal (r.filter (fun c => c ≠ '_')) : Int)) else none
  | r =>
    if udOk true r then some (digitsVal (r.filter (fun c => c ≠ '_'))) else none

/-- Python `int(str)` : surrounding whitespace, an optional sign, then
decimal digits with single underscores between digits; `none` models the
`ValueError` raise. -/
def pyInt (s : String) : Option Int := pyIntCore (trimBy pyIsSpace s.data)

/-- Gregorian leap year (Python `datetime` calendar). -/
def isLeap (y : Int) : Bool := y % 4 = 0 && (y % 100 ≠ 0 || y % 400 = 0)

/-- Number of days of month `m` of year `y`. -/
def daysInMonth (y m : Int) : Int :=
  if m = 2 then (if isLeap y then 29 else 28)
  else if m = 4 || m = 6 || m = 9 || m = 11 then 30 else 31

/-- Day number (days since 1970-01-01) of a calendar date; the standard
civil-from-days algorithm, which is how the embedding represents the
`datetime` values of the source. -/
def civilToDays (y m d : Int) : Int :=
  let y' := if m ≤ 2 then y - 1 else y
  let era := Int.fdiv y' 400
  let yoe := y' - era * 400
  let mp := (m + 9) % 12
  let doy := Int.fdiv (153 * mp + 2) 5 + d - 1
  let doe := yoe * 365 + Int.fdiv yoe 4 - Int.fdiv yoe 100 + doy
  era * 146097 + doe - 719468

/-- Calendar date `(year, month, day)` of a day number (inverse of
`civilToDays`); used to model `datetime.strftime`. -/
def daysToCivil (z0 : Int) : Int × Int × Int :=
  let z := z0 + 719468
  let era := Int.fdiv z 146097
  let doe := z - era * 146097
  let yoe := Int.fdiv (doe - Int.fdiv doe 1460 + Int.fdiv doe 36524 - Int.fdiv doe 146096) 365
  let y := yoe + era * 400
  let doy := doe - (365 * yoe + Int.fdiv yoe 4 - Int.fdiv yoe 100)
  let mp := Int.fdiv (5 * doy + 2) 153
  let d := doy - Int.fdiv (153 * mp + 2) 5 + 1
  let m := mp + (if mp < 10 then 3 else -9)
  (if m ≤ 2 then y + 1 else y, m, d)

/-- The separator class of `DATE_RE`: a dash or a slash. -/
def dateSep (c : Char) : Bool := c = '-' || c = '/'

/-- Match of `DATE_RE` (four digits, a separator, two digits, a separator,
two digits) anchored at the head of the list; returns the ten matched
characters. -/
def dateAt : List Char → Option (List Char)
  | a :: b :: c :: d :: s1 :: e :: f :: s2 :: g :: h :: _ =>
    if isDigitChar a && isDigitChar b && isDigitChar c && isDigitChar d &&
       dateSep s1 && isDigitChar e && isDigitChar f && dateSep s2 &&
       isDigitChar g && isDigitChar h
    then some [a, b, c, d, s1, e, f, s2, g, h] else none
  | _ => none

/-- Leftmost match of `DATE_RE` in a character list (`re.search`). -/
def dateSearchL : List Char → Option (List Char)
  | [] => none
  | c :: t =>
    match dateAt (c :: t) with
    | some m => some m
    | none => dateSearchL t

/-- `DATE_RE.search(s)` : first `YYYY-MM-DD` / `YYYY/MM/DD` shaped token. -/
def dateSearch (s : String) : Option String := (dateSearchL s.data).map (fun l => ⟨l⟩)

/-- Python `s.replace("/", "-")` as applied to a `DATE_RE` match. -/
def slashToDash (s : String) : String :=
  ⟨s.data.map (fun c => if c = '/' then '-' else c)⟩

/-- Two-digit value. -/
def digit2 (a b : Char) : Int := ((a.toNat - 48) * 10 + (b.toNat - 48) : Int)

/-- `datetime.fromisoformat` restricted to the dash-normalised
`YYYY-MM-DD` tokens the converter feeds it (every call site passes a
`DATE_RE` match with `/` replaced by `-`); `none` models the `ValueError`
raise on a token that is not a valid calendar date (`datetime` requires
year ≥ 1, month 1–12 and a day existing in that month).  The result is the
day number of the date. -/
def fromisoformat (s : String) : Option Int :=
  match s.data with
  | [y1, y2, y3, y4, '-', m1, m2, '-', d1, d2] =>
    if isDigitChar y1 && isDigitChar y2 && isDigitChar y3 && isDigitChar y4 &&
       isDigitChar m1 && isDigitChar m2 && isDigitChar d1 && isDigitChar d2 then
      let y := digit2 y1 y2 * 100 + digit2 y3 y4
      let m := digit2 m1 m2
      let d := digit2 d1 d2
      if 1 ≤ y && 1 ≤ m && m ≤ 12 && 1 ≤ d && d ≤ daysInMonth y m then
        some (civilToDays y m d)
      else none
    else none
  | _ => none

/-- Zero-padded two-character rendering used by `strftime("%m/%d")`. -/
def pad2 (n : Int) : String := if n < 10 then "0" ++ toString n else toString n

/-- `day.strftime("%m/%d")` on a day number. -/
def strftimeMMDD (z : Int) : String :=
  let c := daysToCivil z
  pad2 c.2.1 ++ "/" ++ pad2 c.2.2

-- sanity checks of the helper layer
example : pstrip "  a b  " = "a b" := by decide
example : pyInt "10" = some 10 := by decide
example : pyInt "2.5" = none := by decide
example : pyInt " -5 " = some (-5) := by decide
example : pyInt "1_0" = some 10 := by decide
example : pyInt "" = none := by decide
example : civilToDays 1970 1 1 = 0 := by decide
example : civilToDays 2024 1 1 = 19723 := by decide
example : daysToCivil 19723 = (2024, 1, 1) := by decide
example : pySplit " after  a1 " = ["after", "a1"] := by decide
example : pylower "After X" = "after x" := by decide
example : pyEndsWith "2.5d" "d" = true := by decide
example : dateSearch "after 2024-01-05" = some "2024-01-05" := by decide
example : dateSearch "after a1" = none := by decide
example : fromisoformat "2024-01-10" = some 19732 := by decide
example : fromisoformat "2024-13-45" = none := by decide
example : fromisoformat (slashToDash "2024/02/29") = some (civilToDays 2024 2 29) := by decide
example : strftimeMMDD 19723 = "01/01" := by decide

/-- A raw task record collected from one recognised task line: the dict
`{"name": ..., "id": ..., "start_raw": ..., "len_raw": ..., "section": ...}`
built in `parse_mermaid`. -/
structure RawRec where
  name : String
  id : String
  start_raw : String
  len_raw : String
  section_ : Option String
  deriving DecidableEq, Repr

/-- The `Task` class: the constructor strips `name` and `id_` (see
`mkTask`); `start` is a day number, `length_days` the duration in days,
`section` the section tag. -/
structure Task where
  name : String
  id : String
  start : Int
  length_days : Int
  section_ : Option String
  deriving DecidableEq, Repr

deriving instance DecidableEq for Except

/-- `Task.end` : `self.start + timedelta(days=self.length_days)`
(named `end_` because `end` is reserved in Lean). -/
def Task.end_ (t : Task) : Int := t.start + t.length_days

/-- The `Task.__init__` constructor: strips the name and id.  (The Python
attribute `section` is called `section_` here because `section` is a Lean
keyword.) -/
def mkTask (name id : String) (start length_days : Int) (sec : Option String) : Task :=
  ⟨pstrip name, pstrip id, start, length_days, sec⟩

/-- `parse_length(len_raw, start_dt)` : duration in days of a raw length
field, given the already-resolved start date.  `Except.error` models an
uncaught `ValueError` (`int(...)` on a non-integer prefix before `d`/`w`,
or `fromisoformat` on an invalid date-shaped token); only the final bare
`int(lr)` call is guarded by try/except in the source. -/
def parse_length (len_raw : String) (start_dt : Int) : Except String Int :=
  let lr := pstrip len_raw
  if pyEndsWith lr "d" then
    match pyInt (dropLastStr lr) with
    | some n => .ok n
    | none => .error "ValueError: invalid literal for int()"
  else if pyEndsWith lr "w" then
    match pyInt (dropLastStr lr) with
    | some n => .ok (n * 7)
    | none => .error "ValueError: invalid literal for int()"
  else
    match dateSearch lr with
    | some tok =>
      match fromisoformat (slashToDash tok) with
      | some end_dt => .ok (end_dt - start_dt)
      | none => .error "ValueError: invalid isoformat string"
    | none => .ok ((pyInt lr).getD 1)

example : parse_length "10d" 0 = .ok 10 := by decide
example : parse_length "2w" 5 = .ok 14 := by decide
example : parse_length "2024-01-10" (civilToDays 2024 1 1) = .ok 9 := by decide
example : parse_length "xyz" 0 = .ok 1 := by decide
example : parse_length "7" 0 = .ok 7 := by decide
example : (parse_length "2.5d" 0).isOk = false := by decide

/-- The `id_to_task` dict, as an association list; `insert` is a cons and
`lookupT` returns the most recent binding, which matches the overwrite
semantics of the Python dict assignment `id_to_task[task.id] = task`. -/
abbrev Table := List (String × Task)

/-- `id_to_task.get(ref_id)`. -/
def lookupT : Table → String → Option Task
  | [], _ => none
  | (k, v) :: t, key => if k = key then some v else lookupT t key

/-- The mutable resolver state: the `tasks` output list and the
`id_to_task` table. -/
structure RState where
  tasks : List Task
  table : Table
  deriving DecidableEq, Repr

/-- Start resolution of one raw record inside a pass of `parse_mermaid`:
`ok (some start_dt)` when the start is determined, `ok none` when the
record is carried to `remaining` (an `after` reference whose target is not
yet in the table, or a malformed `after` with no reference id), and
`error` when `fromisoformat` raises on an invalid date-shaped token.
A `DATE_RE` match in the start field is tried first; otherwise a start
whose lower-casing begins with `after` is resolved through the table
(`parts[1].strip().strip(",")`); any other start defaults to `now`. -/
def resolveStart (tbl : Table) (now : Int) (r : RawRec) : Except String (Option Int) :=
  match dateSearch r.start_raw with
  | some tok =>
    match fromisoformat (slashToDash tok) with
    | some start_dt => .ok (some start_dt)
    | none => .error "ValueError: invalid isoformat string"
  | none =>
    if pyStartsWith (pylower r.start_raw) "after" then
      match pySplit r.start_raw with
      | _ :: p1 :: _ =>
        let ref_id := stripCommas (pstrip p1)
        match lookupT tbl ref_id with
        | none => .ok none
        | some ref => .ok (some ref.end_)
      | _ => .ok none
    else .ok (some now)

/-- The body of the inner `for r in unresolved` loop of a pass: either the
record resolves (a task is appended and entered into the table; the Bool
is `progressed`) or it is carried (`false`). -/
def stepRecord (now : Int) (st : RState) (r : RawRec) : Except String (RState × Bool) := do
  match ← resolveStart st.table now r with
  | none => .ok (st, false)
  | some start_dt =>
    let length_days ← parse_length r.len_raw start_dt
    let task := mkTask r.name r.id start_dt (max 1 length_days) r.section_
    .ok (⟨st.tasks ++ [task], (task.id, task) :: st.table⟩, true)

/-- One pass over the `unresolved` list, accumulating the `remaining` list
and the `progressed` flag. -/
def passOnce (now : Int) :
    RState → List RawRec → List RawRec → Bool → Except String (RState × List RawRec × Bool)
  | st, [], remaining, progressed => .ok (st, remaining, progressed)
  | st, r :: rest, remaining, progressed => do
    let (st2, resolved) ← stepRecord now st r
    if resolved then passOnce now st2 rest remaining true
    else passOnce now st2 rest (remaining ++ [r]) progressed

/-- The `for _ in range(max_passes)` loop (`max_passes = 10`): run passes
until the fuel is exhausted or a pass resolves nothing new; on the break
the pre-pass `unresolved` list is kept, exactly as in the source. -/
def passLoop (now : Int) : Nat → RState → List RawRec → Except String (RState × List RawRec)
  | 0, st, unresolved => .ok (st, unresolved)
  | fuel + 1, st, unresolved => do
    let (st2, remaining, progressed) ← passOnce now st unresolved [] false
    if progressed then passLoop now fuel st2 remaining
    else .ok (st2, unresolved)

/-- `min(iterable, default=d)` over a list of integers. -/
def listMinD (l : List Int) (d : Int) : Int :=
  match l with
  | [] => d
  | x :: xs => xs.foldl min x

/-- The body of the forced-resolution loop: each still-unresolved record
becomes a task with the precomputed `fallback` start; the table is not
touched by this loop. -/
def forceGo (fallback : Int) : RState → List RawRec → Except String RState
  | st, [] => .ok st
  | st, r :: rest => do
    let length_days ← parse_length r.len_raw fallback
    forceGo fallback
      ⟨st.tasks ++ [mkTask r.name r.id fallback (max 1 length_days) r.section_], st.table⟩ rest

/-- The `if unresolved:` forced-resolution block after the pass loop:
the fallback start is the earliest start among the already-resolved tasks,
or `now` when none exist. -/
def forceResolve (now : Int) (st : RState) (unresolved : List RawRec) : Except String RState :=
  if unresolved.isEmpty then .ok st
  else forceGo (listMinD (st.tasks.map Task.start) now) st unresolved

/-- The resolution phase of `parse_mermaid`: raw records to tasks.
`now` is the injected `datetime.now()` instant. -/
def resolveRecords (now : Int) (records : List RawRec) : Except String (List Task) := do
  let (st, unresolved) ← passLoop now 10 ⟨[], []⟩ records
  let st2 ← forceResolve now st unresolved
  .ok st2.tasks

-- sanity checks of the resolver
example :
    resolveRecords 0 [⟨"Task A", "a1", "2024-01-01", "5d", some "S1"⟩,
                      ⟨"Task B", "a2", "after a1", "3d", some "S1"⟩] =
      .ok [⟨"Task A", "a1", 19723, 5, some "S1"⟩,
           ⟨"Task B", "a2", 19728, 3, some "S1"⟩] := by decide

-- a backward reference resolves on the second pass
example :
    resolveRecords 7 [⟨"B", "a2", "after a1", "3d", none⟩,
                      ⟨"A", "a1", "2024-01-01", "5d", none⟩] =
      .ok [⟨"A", "a1", 19723, 5, none⟩, ⟨"B", "a2", 19728, 3, none⟩] := by decide

-- a cyclic pair falls back to `now`
example :
    resolveRecords 42 [⟨"A", "a1", "after b1", "1d", none⟩,
                       ⟨"B", "b1", "after a1", "2d", none⟩] =
      .ok [⟨"A", "a1", 42, 1, none⟩, ⟨"B", "b1", 42, 2, none⟩] := by decide

-- an unparseable start defaults to `now`
example :
    resolveRecords 17 [⟨"A", "a1", "someday", "3d", none⟩] =
      .ok [⟨"A", "a1", 17, 3, none⟩] := by decide

-- zero-length durations are clamped up to 1
example :
    resolveRecords 0 [⟨"A", "a1", "2024-01-01", "0d", none⟩] =
      .ok [⟨"A", "a1", 19723, 1, none⟩] := by decide

/-- `TASK_RE.match(line)` on a newline-free line (the classifier only
feeds it lines produced by `splitlines`), with the `.strip()` that
`parse_mermaid` applies to each captured group folded in.  The pattern is:
optional whitespace, a nonempty name that cannot contain a colon, a colon,
an id without whitespace or commas, a comma, a nonempty start field
without commas, a comma, and a nonempty length field.  So a match requires
a first colon with at least one character before it; the segment between
that colon and the first following comma must strip to a nonempty token
with no internal whitespace (the id); the segment between the first and
second commas must be nonempty (the start); and at least one character
must follow the second comma (the length). -/
def taskReMatch (line : String) : Option (String × String × String × String) :=
  match splitFirst ':' line.data with
  | none => none
  | some (namePart, rest1) =>
    if namePart.isEmpty then none
    else
      match splitFirst ',' rest1 with
      | none => none
      | some (seg1, rest2) =>
        let idTok := trimBy pyIsSpace seg1
        if idTok.isEmpty then none
        else if idTok.any pyIsSpace then none
        else
          match splitFirst ',' rest2 with
          | none => none
          | some (seg2, rest3) =>
            if seg2.isEmpty then none
            else if rest3.isEmpty then none
            else some (⟨trimBy pyIsSpace namePart⟩, ⟨idTok⟩,
                       ⟨trimBy pyIsSpace seg2⟩, ⟨trimBy pyIsSpace rest3⟩)

example : taskReMatch "    Task A :a1, 2024-01-01, 10d" =
    some ("Task A", "a1", "2024-01-01", "10d") := by decide
example : taskReMatch "section Design" = none := by decide
example : taskReMatch "A : a1, after a0, 3d" = some ("A", "a1", "after a0", "3d") := by decide
example : taskReMatch "A : a b, x, 3d" = none := by decide
example : taskReMatch "A : a1, x" = none := by decide
example : taskReMatch "section Foo: a, b, c" = some ("section Foo", "a", "b", "c") := by decide

/-- The line-scanner state of `parse_mermaid`: whether the `gantt` keyword
line has been seen, the active section, and the collected raw records. -/
structure CState where
  in_gantt : Bool
  current_section : Option String
  raw_tasks : List RawRec
  deriving DecidableEq, Repr

/-- One iteration of the `for line in text.splitlines()` loop:
`line.rstrip()`, then (before the gantt block) look for the `gantt`
keyword; inside the block skip blanks and `%%` comments, collect a
`TASK_RE` match as a raw record, and otherwise treat a line whose stripped
lower-casing begins with `section` as a section header. -/
def classifyLine (st : CState) (line0 : String) : CState :=
  let line := prstrip line0
  if !st.in_gantt then
    if pyStartsWith (pylower (pstrip line)) "gantt" then { st with in_gantt := true }
    else st
  else if (pstrip line).data.isEmpty || pyStartsWith (pstrip line) "%%" then st
  else
    match taskReMatch line with
    | some (name, id, start_s, len_s) =>
      { st with raw_tasks := st.raw_tasks ++ [⟨name, id, start_s, len_s, st.current_section⟩] }
    | none =>
      let s := pstrip line
      if pyStartsWith (pylower s) "section" then
        { st with current_section := some (pstrip (dropStr 7 s)) }
      else st

/-- The record-collection phase of `parse_mermaid` over a list of lines. -/
def collectRecords (lines : List String) : CState :=
  lines.foldl classifyLine ⟨false, none, []⟩

/-- Python `str.splitlines()` restricted to the ASCII line boundaries
(newline, carriage return, CRLF, vertical tab, form feed, and the file and
group separators); produced lines contain none of these characters. -/
def isLineBreak (c : Char) : Bool :=
  c = '\n' || c = '\r' || c = '\x0b' || c = '\x0c' || c = '\x1c' || c = '\x1d' || c = '\x1e'

/-- Accumulator loop of `pySplitlines`. -/
def splitlinesGo : List Char → List Char → List String
  | [], cur => if cur.isEmpty then [] else [⟨cur.reverse⟩]
  | '\r' :: '\n' :: rest, cur => ⟨cur.reverse⟩ :: splitlinesGo rest []
  | c :: rest, cur =>
    if isLineBreak c then ⟨cur.reverse⟩ :: splitlinesGo rest []
    else splitlinesGo rest (c :: cur)

/-- Python `text.splitlines()`. -/
def pySplitlines (text : String) : List String := splitlinesGo text.data []

/-- `parse_mermaid(text)` with the ambient `datetime.now()` instant passed
explicitly: collect raw records line by line, then resolve them. -/
def parse_mermaid (text : String) (now : Int) : Except String (List Task) :=
  resolveRecords now (collectRecords (pySplitlines text)).raw_tasks

example :
    parse_mermaid "gantt\nsection S1\nTask A :a1, 2024-01-01, 5d\nTask B :a2, after a1, 3d" 0 =
      .ok [⟨"Task A", "a1", 19723, 5, some "S1"⟩,
           ⟨"Task B", "a2", 19728, 3, some "S1"⟩] := by decide

example : parse_mermaid "no gantt here\nTask A :a1, 2024-01-01, 5d" 0 = .ok [] := by decide

-- configuration constants of convert.py
def DAY_WIDTH : Int := 20
def TASK_HEIGHT : Int := 20
def MARGIN : Int := 40
def ROW_GAP : Int := 0
def FILL_COLOR : String := "#CDEBFF"
def TICK_INTERVAL : Nat := 7
def LABEL_MIN_GAP : Int := 48
def SECTION_COL_WIDTH : Int := 120
def SECTION_BG_COLORS : List String := ["#FBF7F3", "#F3F7FB"]

/-- Geometry of an output cell: either an `mxGeometry` rectangle or the
absolute source/target point pair of a tick edge. -/
inductive Geom
  | rect (x y w h : Int)
  | pts (sx sy tx ty : Int)
  deriving DecidableEq, Repr

/-- One `mxCell` of the produced document: id, value, style, whether it is
an edge cell (`edge="1"`), and its geometry.  The two structural cells
`"0"` and `"1"` carry no geometry.  Serialization of this cell list to the
XML text is not modelled; the cells are the layout output. -/
structure Cell where
  id : String
  value : String
  style : String
  edge : Bool
  geom : Option Geom
  deriving DecidableEq, Repr

/-- `min(t.start for t in tasks)`; the empty case is unreachable behind
the empty-input guard of `build_drawio_xml`. -/
def minStartD : List Task → Int
  | [] => 0
  | t :: r => r.foldl (fun a x => min a x.start) t.start

/-- `max(t.end() for t in tasks)`; empty case unreachable as above. -/
def maxEndD : List Task → Int
  | [] => 0
  | t :: r => r.foldl (fun a x => max a x.end_) t.end_

/-- First-seen order of the section names, as accumulated by the grouping
loop of `build_drawio_xml`. -/
def sectionOrder (tasks : List Task) : List (Option String) :=
  tasks.foldl (fun acc t => if t.section_ ∈ acc then acc else acc ++ [t.section_]) []

/-- `grouped[section]` : the tasks of one section, in input order (the
Python dict accumulates exactly the sublist of tasks with that tag). -/
def sectionTasks (tasks : List Task) (s : Option String) : List Task :=
  tasks.filter (fun t => t.section_ == s)

/-- The flattened row list: section A's tasks, then section B's, … in
first-seen section order. -/
def rowsOf (tasks : List Task) : List Task :=
  (sectionOrder tasks).flatMap (sectionTasks tasks)

/-- Style string of a section background cell. -/
def sectionBgStyle (color : String) : String :=
  "rounded=0;fillColor=" ++ color ++ ";strokeColor=none;"

/-- Style string of section labels and tick labels. -/
def textStyle : String := "text;verticalAlign=middle;align=center;whiteSpace=wrap;"

/-- Style string of a task bar. -/
def taskStyle : String := "rounded=0;whiteSpace=wrap;fillColor=" ++ FILL_COLOR

/-- Style string of a tick line edge. -/
def tickLineStyle : String := "endArrow=none;strokeColor=#000000;dashed=1;"

/-- The section background / section label loop of `build_drawio_xml`,
over the section order with the running section index `si` and row index.
`label_y` is `block_start_y + (block_height - task_height) / 2` followed
by `int(...)`; on the exact halves produced here that truncation toward
zero is `Int.tdiv` of the doubled sum. -/
def sectionCellsGo (tasks : List Task) (day_width task_height margin total_days : Int) :
    List (Option String) → Nat → Nat → List Cell
  | [], _, _ => []
  | s :: rest, si, row_index =>
    let tlist := sectionTasks tasks s
    if tlist.isEmpty then
      sectionCellsGo tasks day_width task_height margin total_days rest (si + 1) row_index
    else
      let row_height := task_height + ROW_GAP
      let block_start_y := margin + (row_index : Int) * row_height
      let block_height :=
        (tlist.length : Int) * row_height - (if 0 < tlist.length then ROW_GAP else 0)
      let bg_color := SECTION_BG_COLORS.getD (si % SECTION_BG_COLORS.length) ""
      let bg : Cell :=
        ⟨"bg" ++ toString (si + 1), "", sectionBgStyle bg_color, false,
         some (.rect margin block_start_y (SECTION_COL_WIDTH + total_days * day_width)
                 block_height)⟩
      let label_y := Int.tdiv (2 * block_start_y + (block_height - task_height)) 2
      let header : Cell :=
        ⟨"sec_" ++ toString (si + 1), s.getD "", textStyle, false,
         some (.rect margin label_y (SECTION_COL_WIDTH - 8) task_height)⟩
      bg :: header ::
        sectionCellsGo tasks day_width task_height margin total_days rest (si + 1)
          (row_index + tlist.length)

/-- The task bar loop: one rectangle cell per row; the running counter of
the source equals `row_index + 1` since both advance once per task. -/
def taskCellsGo (day_width task_height margin min_date : Int) :
    List Task → Nat → List Cell
  | [], _ => []
  | t :: rest, row_index =>
    let x := margin + SECTION_COL_WIDTH + (t.start - min_date) * day_width
    let w := max 4 (t.length_days * day_width)
    let y := margin + (row_index : Int) * (task_height + ROW_GAP)
    ⟨"task" ++ toString (row_index + 1), t.name, taskStyle, false,
     some (.rect x y w task_height)⟩ ::
      taskCellsGo day_width task_height margin min_date rest (row_index + 1)

/-- Python `range(0, stop, step)` for an integer `stop` and positive
`step`: the multiples of `step` that are nonnegative and below `stop`. -/
def pyRange0 (stop : Int) (step : Nat) : List Int :=
  (List.range ((stop.toNat + step - 1) / step)).map (fun k => ((k * step : Nat) : Int))

example : pyRange0 15 7 = [0, 7, 14] := by decide
example : pyRange0 14 7 = [0, 7] := by decide
example : pyRange0 1 7 = [0] := by decide
example : pyRange0 0 7 = [] := by decide

/-- The tick edge cell at day offset `d`: a dashed vertical line from the
top of the row area down to `bottom`. -/
def tickLineCell (day_width margin bottom : Int) (d : Int) : Cell :=
  let x := margin + SECTION_COL_WIDTH + d * day_width
  ⟨"tick" ++ toString (d + 1), "", tickLineStyle, true, some (.pts x margin x bottom)⟩

/-- The tick label cell at day offset `d`, labelled with the tick's date
formatted `%m/%d` and centred on the tick (`lbl_w // 2` to the left). -/
def tickLabelCell (day_width margin min_date task_height : Int) (d : Int) : Cell :=
  let x := margin + SECTION_COL_WIDTH + d * day_width
  let lbl_w := max 40 LABEL_MIN_GAP
  ⟨"lbl" ++ toString (d + 1), strftimeMMDD (min_date + d), textStyle, false,
   some (.rect (x - Int.fdiv lbl_w 2) (margin - 40) lbl_w task_height)⟩

/-- The tick loop of `build_drawio_xml`: for each offset emit the tick
edge, and emit its label exactly when the tick's x position is at least
`LABEL_MIN_GAP` to the right of the last emitted label's position
(`last_label_x`, initially -1000000). -/
def ticksGo (day_width margin min_date task_height bottom : Int) :
    List Int → Int → List Cell
  | [], _ => []
  | d :: ds, last_label_x =>
    let x := margin + SECTION_COL_WIDTH + d * day_width
    if LABEL_MIN_GAP ≤ x - last_label_x then
      tickLineCell day_width margin bottom d ::
        tickLabelCell day_width margin min_date task_height d ::
          ticksGo day_width margin min_date task_height bottom ds x
    else
      tickLineCell day_width margin bottom d ::
        ticksGo day_width margin min_date task_height bottom ds last_label_x

/-- `rows_height = total_rows * row_height - (ROW_GAP if total_rows > 0
else 0)`. -/
def rowsHeightOf (tasks : List Task) (task_height : Int) : Int :=
  ((rowsOf tasks).length : Int) * (task_height + ROW_GAP) -
    (if 0 < (rowsOf tasks).length then ROW_GAP else 0)

/-- The y coordinate of a tick's bottom end:
`y_start + (rows_height if rows_height > 0 else task_height)`. -/
def tickBottom (tasks : List Task) (task_height margin : Int) : Int :=
  margin + (if 0 < rowsHeightOf tasks task_height then rowsHeightOf tasks task_height
            else task_height)

/-- `total_days = (max_date - min_date).days + 1`. -/
def totalDaysOf (tasks : List Task) : Int := maxEndD tasks - minStartD tasks + 1

/-- The cell list built by `build_drawio_xml` for a nonempty task list:
the two structural cells, the section backgrounds and labels, the task
bars, and the ticks with their surviving labels, in source append order. -/
def drawioCells (tasks : List Task) (day_width task_height margin : Int) : List Cell :=
  ⟨"0", "", "", false, none⟩ :: ⟨"1", "", "", false, none⟩ ::
    (sectionCellsGo tasks day_width task_height margin (totalDaysOf tasks)
       (sectionOrder tasks) 0 0 ++
     taskCellsGo day_width task_height margin (minStartD tasks) (rowsOf tasks) 0 ++
     ticksGo day_width margin (minStartD tasks) task_height
       (tickBottom tasks task_height margin)
       (pyRange0 (totalDaysOf tasks) TICK_INTERVAL) (-1000000))

/-- `build_drawio_xml(tasks, ...)` : raises `ValueError("no tasks
provided")` on an empty task list (modelled as `Except.error`), and
otherwise builds the cell list. -/
def build_drawio_xml (tasks : List Task)
    (day_width : Int := DAY_WIDTH) (task_height : Int := TASK_HEIGHT)
    (margin : Int := MARGIN) : Except String (List Cell) :=
  if tasks.isEmpty then .error "no tasks provided"
  else .ok (drawioCells tasks day_width task_height margin)

-- the concrete two-task scenario of the spec, laid out
example :
    drawioCells [⟨"Task A", "a1", 19723, 5, some "S1"⟩,
                 ⟨"Task B", "a2", 19728, 3, some "S1"⟩] 20 20 40 =
      [⟨"0", "", "", false, none⟩, ⟨"1", "", "", false, none⟩,
       ⟨"bg1", "", "rounded=0;fillColor=#FBF7F3;strokeColor=none;", false,
        some (.rect 40 40 300 40)⟩,
       ⟨"sec_1", "S1", textStyle, false, some (.rect 40 50 112 20)⟩,
       ⟨"task1", "Task A", taskStyle, false, some (.rect 160 40 100 20)⟩,
       ⟨"task2", "Task B", taskStyle, false, some (.rect 260 60 60 20)⟩,
       ⟨"tick1", "", tickLineStyle, true, some (.pts 160 40 160 80)⟩,
       ⟨"lbl1", "01/01", textStyle, false, some (.rect 136 0 48 20)⟩,
       ⟨"tick8", "", tickLineStyle, true, some (.pts 300 40 300 80)⟩,
       ⟨"lbl8", "01/08", textStyle, false, some (.rect 276 0 48 20)⟩] := by decide

/-- The start field cannot make the resolver raise: any date-shaped token
in it is a valid calendar date. -/
def startOkB (s : String) : Bool :=
  match dateSearch s with
  | some tok => (fromisoformat (slashToDash tok)).isSome
  | none => true

/-- The length field cannot make `parse_length` raise: a trailing `d`/`w`
has an integer prefix, and otherwise any date-shaped token in it is a
valid calendar date. -/
def lenOkB (s : String) : Bool :=
  if pyEndsWith (pstrip s) "d" then (pyInt (dropLastStr (pstrip s))).isSome
  else if pyEndsWith (pstrip s) "w" then (pyInt (dropLastStr (pstrip s))).isSome
  else
    match dateSearch (pstrip s) with
    | some tok => (fromisoformat (slashToDash tok)).isSome
    | none => true

/-- A record on which the resolution phase cannot raise. -/
def recOk (r : RawRec) : Bool := startOkB r.start_raw && lenOkB r.len_raw

/-- Modelled from the spec: the greedy left-to-right tick-label rule of
§4.3 step 8 — walking the tick day offsets in order, a tick's label is
kept exactly when its x position is at least `LABEL_MIN_GAP` to the right
of the last kept label's x position.  The layout's label output is proved
to refine this rule. -/
def greedyLabelOffsets (day_width margin : Int) : List Int → Int → List Int
  | [], _ => []
  | d :: ds, last =>
    let x := margin + SECTION_COL_WIDTH + d * day_width
    if LABEL_MIN_GAP ≤ x - last then d :: greedyLabelOffsets day_width margin ds x
    else greedyLabelOffsets day_width margin ds last

/-! ## Theorems -/

/-- C5: the layout stage raises exactly on an empty task list (the
`ValueError("no tasks provided")` guard), producing no cell list there,
and succeeds on every non-empty task list. -/
theorem C5_layout_empty_iff (tasks : List Task) (day_width task_height margin : Int) :
    (build_drawio_xml tasks day_width task_height margin).isOk = true ↔ tasks ≠ [] := by
  cases tasks with
  | nil => simp [build_drawio_xml, List.isEmpty, Except.isOk, Except.toBool]
  | cons t r => simp [build_drawio_xml, List.isEmpty, Except.isOk, Except.toBool]

/-- Witness for C5 at a concrete one-task input. -/
theorem C5_layout_empty_iff_witness :
    (build_drawio_xml [⟨"A", "a1", 0, 1, none⟩] 20 20 40).isOk = true :=
  (C5_layout_empty_iff [⟨"A", "a1", 0, 1, none⟩] 20 20 40).mpr (by decide)

/-- C6: length parsing given a resolved start date — a field with trailing
`d` and an integer prefix gives that many days, trailing `w` gives the
integer times 7, a field holding a valid date literal gives the day
difference to the start, a bare integer gives itself, anything else gives
1; and the duration a resolved record finally stores is the parsed value
clamped up to at least 1. -/
theorem C6_parse_length_cases (s : String) (start n e : Int) (tok : String) :
    (pyEndsWith (pstrip s) "d" = true → pyInt (dropLastStr (pstrip s)) = some n →
        parse_length s start = .ok n) ∧
    (pyEndsWith (pstrip s) "d" = false → pyEndsWith (pstrip s) "w" = true →
        pyInt (dropLastStr (pstrip s)) = some n → parse_length s start = .ok (n * 7)) ∧
    (pyEndsWith (pstrip s) "d" = false → pyEndsWith (pstrip s) "w" = false →
        dateSearch (pstrip s) = some tok → fromisoformat (slashToDash tok) = some e →
        parse_length s start = .ok (e - start)) ∧
    (pyEndsWith (pstrip s) "d" = false → pyEndsWith (pstrip s) "w" = false →
        dateSearch (pstrip s) = none → pyInt (pstrip s) = some n →
        parse_length s start = .ok n) ∧
    (pyEndsWith (pstrip s) "d" = false → pyEndsWith (pstrip s) "w" = false →
        dateSearch (pstrip s) = none → pyInt (pstrip s) = none →
        parse_length s start = .ok 1) ∧
    (∀ (now : Int) (st : RState) (r : RawRec) (st2 : RState) (b : Bool),
        stepRecord now st r = .ok (st2, b) → ∀ t ∈ st2.tasks,
          t ∈ st.tasks ∨ 1 ≤ t.length_days) := by
  refine ⟨?_, ?_, ?_, ?_, ?_, ?_⟩
  · intro hd hn
    simp [parse_length, hd, hn]
  · intro hd hw hn
    simp [parse_length, hd, hw, hn]
  · intro hd hw hds hfi
    simp [parse_length, hd, hw, hds, hfi]
  · intro hd hw hds hn
    simp [parse_length, hd, hw, hds, hn]
  · intro hd hw hds hn
    simp [parse_length, hd, hw, hds, hn]
  · intro now st r st2 b h t ht
    unfold stepRecord at h
    cases hrs : resolveStart st.table now r with
    | error err => rw [hrs] at h; simp [Bind.bind, Except.bind] at h
    | ok o =>
      rw [hrs] at h
      cases o with
      | none =>
        simp [Bind.bind, Except.bind] at h
        rw [← h.1] at ht
        exact Or.inl ht
      | some start_dt =>
        cases hpl : parse_length r.len_raw start_dt with
        | error err => simp [Bind.bind, Except.bind, hpl] at h
        | ok v =>
          simp [Bind.bind, Except.bind, hpl] at h
          rw [← h.1] at ht
          rcases List.mem_append.mp ht with hl | hr
          · exact Or.inl hl
          · rcases List.mem_singleton.mp hr with rfl
            exact Or.inr (le_max_left 1 v)

/-- Witness for C6: the spec's concrete length scenarios. -/
theorem C6_parse_length_cases_witness :
    parse_length "10d" (0 : Int) = .ok 10 ∧ parse_length "2w" (0 : Int) = .ok 14 ∧
    parse_length "2024-01-10" (civilToDays 2024 1 1) = .ok 9 ∧
    parse_length "7" (0 : Int) = .ok 7 ∧ parse_length "xyz" (0 : Int) = .ok 1 := by
  refine ⟨?_, ?_, ?_, ?_, ?_⟩
  · exact (C6_parse_length_cases "10d" 0 10 0 "").1 (by decide) (by decide)
  · have h := (C6_parse_length_cases "2w" 0 2 0 "").2.1 (by decide) (by decide) (by decide)
    simpa using h
  · have h := (C6_parse_length_cases "2024-01-10" (civilToDays 2024 1 1) 0 19732
      "2024-01-10").2.2.1 (by decide) (by decide) (by decide) (by decide)
    simpa using h
  · exact (C6_parse_length_cases "7" 0 7 0 "").2.2.2.1 (by decide) (by decide) (by decide)
      (by decide)
  · exact (C6_parse_length_cases "xyz" 0 0 0 "").2.2.2.2.1 (by decide) (by decide) (by decide)
      (by decide)

/-- C2 counterexample: task A resolves with id `2024-01-05`, start
2024-01-01 (day 19723) and duration 3; record B's start field is exactly
`after` followed by A's id, yet B resolves to start day 19727 (the date
literal found inside the field, which `parse_mermaid` tries before the
`after` keyword), not to A's end 19723 + 3 = 19726. -/
theorem C2_counterexample :
    "after 2024-01-05" = "after " ++ "2024-01-05" ∧
    resolveRecords 0
        [⟨"A", "2024-01-05", "2024-01-01", "3d", none⟩,
         ⟨"B", "b1", "after 2024-01-05", "2d", none⟩] =
      .ok [⟨"A", "2024-01-05", 19723, 3, none⟩, ⟨"B", "b1", 19727, 2, none⟩] ∧
    (19727 : Int) ≠ 19723 + 3 :=
  ⟨rfl, by decide, by decide⟩

/-- C2 (amended): a record whose start field, case-insensitive, begins
with `after` followed by a reference id resolves to a task whose start is
the referenced task's end (start + duration), provided the start field
contains no date-shaped token (a date token takes precedence over
`after`) and the reference id is bound to that task in the resolved-id
table when the record is examined. -/
theorem C2_after_start_is_ref_end (st : RState) (now : Int) (r : RawRec) (A : Task)
    (w p : String) (ps : List String) (L : Int)
    (hnd : dateSearch r.start_raw = none)
    (haft : pyStartsWith (pylower r.start_raw) "after" = true)
    (hsplit : pySplit r.start_raw = w :: p :: ps)
    (href : stripCommas (pstrip p) = A.id)
    (htbl : lookupT st.table A.id = some A)
    (hlen : parse_length r.len_raw (A.start + A.length_days) = .ok L) :
    ∃ task : Task, task.start = A.start + A.length_days ∧
      stepRecord now st r =
        .ok (⟨st.tasks ++ [task], (task.id, task) :: st.table⟩, true) := by
  have hrs : resolveStart st.table now r = .ok (some (A.start + A.length_days)) := by
    unfold resolveStart
    rw [hnd, haft, hsplit]
    simp [href, htbl, Task.end_]
  refine ⟨mkTask r.name r.id (A.start + A.length_days) (max 1 L) r.section_, rfl, ?_⟩
  unfold stepRecord
  rw [hrs]
  simp [Bind.bind, Except.bind, hlen]

/-- Witness for C2: with A = (id `a1`, start 100, duration 5) in the
table, the record `after a1` resolves to start 105 = A's end. -/
theorem C2_after_start_is_ref_end_witness :
    ∃ task : Task, task.start = (100 : Int) + 5 ∧
      stepRecord 0 ⟨[], [("a1", ⟨"A", "a1", 100, 5, none⟩)]⟩
          ⟨"B", "b1", "after a1", "3d", none⟩ =
        .ok (⟨[] ++ [task], (task.id, task) :: [("a1", ⟨"A", "a1", 100, 5, none⟩)]⟩, true) :=
  C2_after_start_is_ref_end ⟨[], [("a1", ⟨"A", "a1", 100, 5, none⟩)]⟩ 0
    ⟨"B", "b1", "after a1", "3d", none⟩ ⟨"A", "a1", 100, 5, none⟩
    "after" "a1" [] 3 (by decide) (by decide) (by decide) (by decide) (by decide) (by decide)

/-- C7 counterexample: inside a gantt block, the line
`section Foo: a, b, c` has trimmed, case-insensitive content beginning
with the keyword `section`, yet it matches `TASK_RE` (a colon followed by
a comma-separated id/start/length triple), so the classifier produces a
raw record (name `section Foo`) and leaves the active section unchanged
(`none`), contradicting the claim for section names that contain a colon
and commas. -/
theorem C7_counterexample :
    pyStartsWith (pylower (pstrip "section Foo: a, b, c")) "section" = true ∧
    collectRecords ["gantt", "section Foo: a, b, c"] =
      ⟨true, none, [⟨"section Foo", "a", "b", "c", none⟩]⟩ :=
  ⟨by decide, by decide⟩

/-- C7 (amended): inside a gantt block, a non-blank, non-comment line that
does not match the task grammar and whose trimmed, case-insensitive
content begins with the keyword `section` sets the active section to the
trimmed remainder of the line and produces no raw record; a section line
that also matches the task grammar is instead consumed as a task record. -/
theorem C7_section_line_sets_section (st : CState) (line : String)
    (hin : st.in_gantt = true)
    (hne : (pstrip (prstrip line)).data.isEmpty = false)
    (hnc : pyStartsWith (pstrip (prstrip line)) "%%" = false)
    (hnt : taskReMatch (prstrip line) = none)
    (hsec : pyStartsWith (pylower (pstrip (prstrip line))) "section" = true) :
    classifyLine st line =
      { st with current_section := some (pstrip (dropStr 7 (pstrip (prstrip line)))) } := by
  unfold classifyLine
  rw [hin]
  simp [hne, hnc, hnt, hsec]

/-- Witness for C7: the line `  Section Design ` sets the section to
`Design` and collects no record. -/
theorem C7_section_line_sets_section_witness :
    classifyLine ⟨true, none, []⟩ "  Section Design " =
      { (⟨true, none, []⟩ : CState) with
          current_section := some (pstrip (dropStr 7 (pstrip (prstrip "  Section Design ")))) } :=
  C7_section_line_sets_section ⟨true, none, []⟩ "  Section Design "
    (by decide) (by decide) (by decide) (by decide) (by decide)

/-- Invariant of the forced-resolution loop body: the table is untouched
and every appended task starts at the precomputed fallback. -/
theorem forceGo_spec (fb : Int) :
    ∀ (l : List RawRec) (st st2 : RState), forceGo fb st l = .ok st2 →
      st2.table = st.table ∧
      ∃ forced : List Task, st2.tasks = st.tasks ++ forced ∧
        forced.length = l.length ∧ ∀ t ∈ forced, t.start = fb ∧ 1 ≤ t.length_days := by
  intro l
  induction l with
  | nil =>
    intro st st2 h
    unfold forceGo at h
    cases h
    exact ⟨rfl, [], by simp, by simp, by simp⟩
  | cons r rest ih =>
    intro st st2 h
    unfold forceGo at h
    cases hpl : parse_length r.len_raw fb with
    | error err => rw [hpl] at h; simp [Bind.bind, Except.bind] at h
    | ok v =>
      rw [hpl] at h
      simp only [Bind.bind, Except.bind] at h
      obtain ⟨htbl, forced, happ, hlen, hall⟩ := ih _ _ h
      refine ⟨htbl, mkTask r.name r.id fb (max 1 v) r.section_ :: forced, ?_, by simp [hlen], ?_⟩
      · rw [happ]; simp
      · intro t ht
        rcases List.mem_cons.mp ht with rfl | hm
        · exact ⟨rfl, le_max_left 1 v⟩
        · exact hall t hm

/-- C10: the forced-resolution phase after the pass loop never writes the
resolved-id table — so a force-resolved task can neither serve as an
`after` target nor overwrite the table entry of an earlier task with the
same id — and every record it resolves receives the fallback start (the
earliest start among the pass-resolved tasks, or `now` when none exist)
rather than any referenced task's end. -/
theorem C10_forced_tasks_not_in_table (now : Int) (st : RState)
    (unresolved : List RawRec) (st2 : RState)
    (h : forceResolve now st unresolved = .ok st2) :
    st2.table = st.table ∧
    ∃ forced : List Task, st2.tasks = st.tasks ++ forced ∧
      forced.length = unresolved.length ∧
      ∀ t ∈ forced, t.start = listMinD (st.tasks.map Task.start) now := by
  unfold forceResolve at h
  cases unresolved with
  | nil =>
    simp at h
    cases h
    exact ⟨rfl, [], by simp, by simp, by simp⟩
  | cons r rest =>
    simp [List.isEmpty] at h
    obtain ⟨htbl, forced, happ, hlen, hall⟩ := forceGo_spec _ _ _ _ h
    exact ⟨htbl, forced, happ, hlen, fun t ht => (hall t ht).1⟩

/-- Witness for C10: with one pass-resolved task Z (start 100) in the
table, the unresolved records X (`after zzz`, a dangling reference) and Y
(`after x1`, whose target X is itself only force-resolved) both receive
the fallback start 100; Y does not receive X's end 102, and the table
keeps only Z. -/
theorem C10_forced_tasks_not_in_table_witness :
    (⟨[⟨"Z", "z1", 100, 5, none⟩,
       ⟨"X", "x1", 100, 2, none⟩, ⟨"Y", "y1", 100, 1, none⟩],
      [("z1", ⟨"Z", "z1", 100, 5, none⟩)]⟩ : RState).table =
      (⟨[⟨"Z", "z1", 100, 5, none⟩], [("z1", ⟨"Z", "z1", 100, 5, none⟩)]⟩ : RState).table ∧
    ∃ forced : List Task,
      (⟨[⟨"Z", "z1", 100, 5, none⟩,
         ⟨"X", "x1", 100, 2, none⟩, ⟨"Y", "y1", 100, 1, none⟩],
        [("z1", ⟨"Z", "z1", 100, 5, none⟩)]⟩ : RState).tasks =
        (⟨[⟨"Z", "z1", 100, 5, none⟩], [("z1", ⟨"Z", "z1", 100, 5, none⟩)]⟩ : RState).tasks
          ++ forced ∧
      forced.length = [(⟨"X", "x1", "after zzz", "2d", none⟩ : RawRec),
                       ⟨"Y", "y1", "after x1", "1d", none⟩].length ∧
      ∀ t ∈ forced, t.start =
        listMinD ((⟨[⟨"Z", "z1", 100, 5, none⟩],
          [("z1", ⟨"Z", "z1", 100, 5, none⟩)]⟩ : RState).tasks.map Task.start) 0 :=
  C10_forced_tasks_not_in_table 0
    ⟨[⟨"Z", "z1", 100, 5, none⟩], [("z1", ⟨"Z", "z1", 100, 5, none⟩)]⟩
    [⟨"X", "x1", "after zzz", "2d", none⟩, ⟨"Y", "y1", "after x1", "1d", none⟩]
    ⟨[⟨"Z", "z1", 100, 5, none⟩,
      ⟨"X", "x1", 100, 2, none⟩, ⟨"Y", "y1", 100, 1, none⟩],
     [("z1", ⟨"Z", "z1", 100, 5, none⟩)]⟩ (by decide)

theorem parse_length_ok_of_lenOk (s : String) (h : lenOkB s = true) (d : Int) :
    ∃ v, parse_length s d = .ok v := by
  unfold lenOkB at h
  unfold parse_length
  cases hd : pyEndsWith (pstrip s) "d" with
  | true =>
    rw [hd] at h
    simp only [if_pos rfl] at h
    obtain ⟨n, hn⟩ := Option.isSome_iff_exists.mp (by simpa using h)
    exact ⟨n, by simp [hd, hn]⟩
  | false =>
    rw [hd] at h
    simp only [Bool.false_eq_true, if_neg] at h
    cases hw : pyEndsWith (pstrip s) "w" with
    | true =>
      rw [hw] at h
      simp only [if_pos rfl] at h
      obtain ⟨n, hn⟩ := Option.isSome_iff_exists.mp (by simpa using h)
      exact ⟨n * 7, by simp [hd, hw, hn]⟩
    | false =>
      rw [hw] at h
      simp only [Bool.false_eq_true, if_neg] at h
      cases hds : dateSearch (pstrip s) with
      | some tok =>
        rw [hds] at h
        obtain ⟨e, he⟩ := Option.isSome_iff_exists.mp (by simpa using h)
        exact ⟨e - d, by simp [hd, hw, hds, he]⟩
      | none => exact ⟨(pyInt (pstrip s)).getD 1, by simp [hd, hw, hds]⟩

theorem resolveStart_ok_of_startOk (tbl : Table) (now : Int) (r : RawRec)
    (h : startOkB r.start_raw = true) :
    ∃ o, resolveStart tbl now r = .ok o := by
  unfold startOkB at h
  unfold resolveStart
  cases hds : dateSearch r.start_raw with
  | some tok =>
    rw [hds] at h
    obtain ⟨v, hv⟩ := Option.isSome_iff_exists.mp (by simpa using h)
    exact ⟨some v, by simp [hv]⟩
  | none =>
    cases haft : pyStartsWith (pylower r.start_raw) "after" with
    | false => exact ⟨some now, by simp [haft]⟩
    | true =>
      cases hsp : pySplit r.start_raw with
      | nil => exact ⟨none, by simp [haft, hsp]⟩
      | cons w t =>
        cases t with
        | nil => exact ⟨none, by simp [haft, hsp]⟩
        | cons p ps =>
          cases hlk : lookupT tbl (stripCommas (pstrip p)) with
          | none => exact ⟨none, by simp [haft, hsp, hlk]⟩
          | some A => exact ⟨some A.end_, by simp [haft, hsp, hlk]⟩

/-- A record that satisfies `recOk` steps without raising: either it is
carried unchanged, or exactly one task is appended. -/
theorem stepRecord_ok (now : Int) (st : RState) (r : RawRec) (h : recOk r = true) :
    ∃ st2 b, stepRecord now st r = .ok (st2, b) ∧
      (b = false → st2 = st) ∧
      (b = true → st2.tasks.length = st.tasks.length + 1) := by
  obtain ⟨hso, hlo⟩ := Bool.and_eq_true_iff.mp h
  obtain ⟨o, ho⟩ := resolveStart_ok_of_startOk st.table now r hso
  cases o with
  | none =>
    refine ⟨st, false, ?_, fun _ => rfl, by simp⟩
    unfold stepRecord
    rw [ho]
    simp [Bind.bind, Except.bind]
  | some start_dt =>
    obtain ⟨v, hv⟩ := parse_length_ok_of_lenOk r.len_raw hlo start_dt
    refine ⟨⟨st.tasks ++ [mkTask r.name r.id start_dt (max 1 v) r.section_],
             ((mkTask r.name r.id start_dt (max 1 v) r.section_).id,
              mkTask r.name r.id start_dt (max 1 v) r.section_) :: st.table⟩, true,
            ?_, by simp, by simp⟩
    unfold stepRecord
    rw [ho]
    simp [Bind.bind, Except.bind, hv]

/-- A pass over records that cannot raise succeeds; it conserves the count
of appended tasks plus carried records, carries only records from its
input, and reports no progress only when it changed nothing. -/
theorem passOnce_spec (now : Int) :
    ∀ (rs : List RawRec) (st : RState) (remaining : List RawRec) (prog : Bool),
      (∀ r ∈ rs, recOk r = true) → (∀ r ∈ remaining, recOk r = true) →
      ∃ st2 rem2 prog2,
        passOnce now st rs remaining prog = .ok (st2, rem2, prog2) ∧
        st2.tasks.length + rem2.length = st.tasks.length + remaining.length + rs.length ∧
        (∀ r ∈ rem2, recOk r = true) ∧
        (prog2 = false → st2 = st ∧ prog = false) := by
  intro rs
  induction rs with
  | nil =>
    intro st remaining prog hrs hrem
    exact ⟨st, remaining, prog, rfl, by simp, hrem, fun hp => ⟨rfl, by
      cases prog with
      | false => rfl
      | true => exact absurd hp (by simp)⟩⟩
  | cons r rest ih =>
    intro st remaining prog hrs hrem
    obtain ⟨stm, b, hstep, hfalse, htrue⟩ :=
      stepRecord_ok now st r (hrs r (List.mem_cons_self r rest))
    have hrest : ∀ x ∈ rest, recOk x = true := fun x hx => hrs x (List.mem_cons_of_mem r hx)
    cases b with
    | true =>
      obtain ⟨st2, rem2, prog2, heq, hcount, hok2, hbreak⟩ := ih stm remaining true hrest hrem
      refine ⟨st2, rem2, prog2, ?_, ?_, hok2, ?_⟩
      · unfold passOnce
        rw [hstep]
        simpa [Bind.bind, Except.bind] using heq
      · have h1 := htrue rfl
        simp only [List.length_cons]
        omega
      · intro hp
        exact absurd (hbreak hp).2 (by simp)
    | false =>
      have hst : stm = st := hfalse rfl
      subst hst
      have hrem2 : ∀ x ∈ remaining ++ [r], recOk x = true := by
        intro x hx
        rcases List.mem_append.mp hx with hl | hr
        · exact hrem x hl
        · rcases List.mem_singleton.mp hr with rfl
          exact hrs x (List.mem_cons_self x rest)
      obtain ⟨st2, rem2, prog2, heq, hcount, hok2, hbreak⟩ :=
        ih stm (remaining ++ [r]) prog hrest hrem2
      refine ⟨st2, rem2, prog2, ?_, ?_, hok2, hbreak⟩
      · unfold passOnce
        rw [hstep]
        simpa [Bind.bind, Except.bind] using heq
      · simp only [List.length_cons]
        simp at hcount
        omega

/-- The bounded pass loop on records that cannot raise succeeds and
conserves the count of tasks plus still-unresolved records. -/
theorem passLoop_spec (now : Int) :
    ∀ (fuel : Nat) (st : RState) (unres : List RawRec),
      (∀ r ∈ unres, recOk r = true) →
      ∃ st2 unres2,
        passLoop now fuel st unres = .ok (st2, unres2) ∧
        st2.tasks.length + unres2.length = st.tasks.length + unres.length ∧
        (∀ r ∈ unres2, recOk r = true) := by
  intro fuel
  induction fuel with
  | zero => intro st unres hok; exact ⟨st, unres, rfl, rfl, hok⟩
  | succ f ih =>
    intro st unres hok
    obtain ⟨stm, rem, prog2, heq, hcount, hremok, hbreak⟩ :=
      passOnce_spec now unres st [] false hok (by simp)
    cases prog2 with
    | true =>
      obtain ⟨st2, unres2, heq2, hcount2, hok2⟩ := ih stm rem hremok
      refine ⟨st2, unres2, ?_, ?_, hok2⟩
      · unfold passLoop
        rw [heq]
        simpa [Bind.bind, Except.bind] using heq2
      · simp at hcount
        omega
    | false =>
      obtain ⟨hst, _⟩ := hbreak rfl
      subst hst
      refine ⟨stm, unres, ?_, rfl, hok⟩
      unfold passLoop
      rw [heq]
      simp [Bind.bind, Except.bind]

/-- The forced-resolution loop on records that cannot raise succeeds and
appends one task per record. -/
theorem forceGo_ok (fb : Int) :
    ∀ (l : List RawRec) (st : RState), (∀ r ∈ l, recOk r = true) →
      ∃ st2, forceGo fb st l = .ok st2 ∧
        st2.tasks.length = st.tasks.length + l.length := by
  intro l
  induction l with
  | nil => intro st _; exact ⟨st, rfl, by simp⟩
  | cons r rest ih =>
    intro st hok
    have hlo : lenOkB r.len_raw = true :=
      (Bool.and_eq_true_iff.mp (hok r (List.mem_cons_self r rest))).2
    obtain ⟨v, hv⟩ := parse_length_ok_of_lenOk r.len_raw hlo fb
    obtain ⟨st2, heq, hlen⟩ :=
      ih ⟨st.tasks ++ [mkTask r.name r.id fb (max 1 v) r.section_], st.table⟩
        (fun x hx => hok x (List.mem_cons_of_mem r hx))
    refine ⟨st2, ?_, ?_⟩
    · unfold forceGo
      rw [hv]
      simpa [Bind.bind, Except.bind] using heq
    · simp only [List.length_cons]
      simp at hlen
      omega

/-- `forceResolve` on records that cannot raise succeeds and appends one
task per still-unresolved record. -/
theorem forceResolve_ok (now : Int) (st : RState) (unres : List RawRec)
    (hok : ∀ r ∈ unres, recOk r = true) :
    ∃ st2, forceResolve now st unres = .ok st2 ∧
      st2.tasks.length = st.tasks.length + unres.length := by
  unfold forceResolve
  cases unres with
  | nil => exact ⟨st, by simp, by simp⟩
  | cons r rest =>
    obtain ⟨st2, heq, hlen⟩ :=
      forceGo_ok (listMinD (st.tasks.map Task.start) now) (r :: rest) st hok
    exact ⟨st2, by simpa [List.isEmpty] using heq, hlen⟩

/-- A resolution step only adds tasks whose clamped duration is ≥ 1. -/
theorem stepRecord_good (now : Int) (st : RState) (r : RawRec) (st2 : RState) (b : Bool)
    (h : stepRecord now st r = .ok (st2, b)) :
    ∀ t ∈ st2.tasks, t ∈ st.tasks ∨ 1 ≤ t.length_days := by
  intro t ht
  unfold stepRecord at h
  cases hrs : resolveStart st.table now r with
  | error err => rw [hrs] at h; simp [Bind.bind, Except.bind] at h
  | ok o =>
    rw [hrs] at h
    cases o with
    | none =>
      simp [Bind.bind, Except.bind] at h
      rw [← h.1] at ht
      exact Or.inl ht
    | some start_dt =>
      cases hpl : parse_length r.len_raw start_dt with
      | error err => simp [Bind.bind, Except.bind, hpl] at h
      | ok v =>
        simp [Bind.bind, Except.bind, hpl] at h
        rw [← h.1] at ht
        rcases List.mem_append.mp ht with hl | hr
        · exact Or.inl hl
        · rcases List.mem_singleton.mp hr with rfl
          exact Or.inr (le_max_left 1 v)

/-- A pass preserves the duration invariant of the task list. -/
theorem passOnce_good (now : Int) :
    ∀ (rs : List RawRec) (st : RState) (remaining : List RawRec) (prog : Bool)
      (st2 : RState) (rem2 : List RawRec) (prog2 : Bool),
      passOnce now st rs remaining prog = .ok (st2, rem2, prog2) →
      (∀ t ∈ st.tasks, 1 ≤ t.length_days) → ∀ t ∈ st2.tasks, 1 ≤ t.length_days := by
  intro rs
  induction rs with
  | nil =>
    intro st remaining prog st2 rem2 prog2 h hg
    unfold passOnce at h
    simp at h
    rw [← h.1]
    exact hg
  | cons r rest ih =>
    intro st remaining prog st2 rem2 prog2 h hg
    unfold passOnce at h
    cases hs : stepRecord now st r with
    | error e => rw [hs] at h; simp [Bind.bind, Except.bind] at h
    | ok p =>
      rw [hs] at h
      obtain ⟨stm, b⟩ := p
      simp only [Bind.bind, Except.bind] at h
      have hstm : ∀ t ∈ stm.tasks, 1 ≤ t.length_days := by
        intro t ht
        rcases stepRecord_good now st r stm b hs t ht with hin | hge
        · exact hg t hin
        · exact hge
      cases b with
      | true =>
        simp at h
        exact ih stm remaining true st2 rem2 prog2 h hstm
      | false =>
        simp at h
        exact ih stm (remaining ++ [r]) prog st2 rem2 prog2 h hstm

/-- The pass loop preserves the duration invariant. -/
theorem passLoop_good (now : Int) :
    ∀ (fuel : Nat) (st : RState) (unres : List RawRec) (st2 : RState) (unres2 : List RawRec),
      passLoop now fuel st unres = .ok (st2, unres2) →
      (∀ t ∈ st.tasks, 1 ≤ t.length_days) → ∀ t ∈ st2.tasks, 1 ≤ t.length_days := by
  intro fuel
  induction fuel with
  | zero =>
    intro st unres st2 unres2 h hg
    unfold passLoop at h
    simp at h
    rw [← h.1]
    exact hg
  | succ f ih =>
    intro st unres st2 unres2 h hg
    unfold passLoop at h
    cases hp : passOnce now st unres [] false with
    | error e => rw [hp] at h; simp [Bind.bind, Except.bind] at h
    | ok trip =>
      rw [hp] at h
      obtain ⟨stm, rem, prog⟩ := trip
      simp only [Bind.bind, Except.bind] at h
      have hstm := passOnce_good now unres st [] false stm rem prog hp hg
      cases prog with
      | true =>
        simp at h
        exact ih stm rem st2 unres2 h hstm
      | false =>
        simp at h
        rw [← h.1]
        exact hstm

/-- The forced-resolution phase preserves the duration invariant. -/
theorem forceResolve_good (now : Int) (st : RState) (unres : List RawRec) (st2 : RState)
    (h : forceResolve now st unres = .ok st2)
    (hg : ∀ t ∈ st.tasks, 1 ≤ t.length_days) : ∀ t ∈ st2.tasks, 1 ≤ t.length_days := by
  unfold forceResolve at h
  cases unres with
  | nil =>
    simp at h
    cases h
    exact hg
  | cons r rest =>
    simp [List.isEmpty] at h
    obtain ⟨_, forced, happ, _, hall⟩ := forceGo_spec _ _ _ _ h
    intro t ht
    rw [happ] at ht
    rcases List.mem_append.mp ht with hl | hr
    · exact hg t hl
    · exact (hall t hr).2

/-- C3: every task produced by the resolver has `duration_days ≥ 1` (the
`max(1, ...)` clamp at both construction sites) and `end` equal to
`start + duration_days` exactly. -/
theorem C3_duration_invariant (now : Int) (records : List RawRec) (ts : List Task)
    (h : resolveRecords now records = .ok ts) :
    ∀ t ∈ ts, 1 ≤ t.length_days ∧ t.end_ = t.start + t.length_days := by
  unfold resolveRecords at h
  cases hpl : passLoop now 10 ⟨[], []⟩ records with
  | error e => rw [hpl] at h; simp [Bind.bind, Except.bind] at h
  | ok pr =>
    rw [hpl] at h
    obtain ⟨stm, unres⟩ := pr
    simp only [Bind.bind, Except.bind] at h
    cases hfr : forceResolve now stm unres with
    | error e => rw [hfr] at h; simp at h
    | ok st2 =>
      rw [hfr] at h
      simp at h
      have hg := passLoop_good now 10 ⟨[], []⟩ records stm unres hpl (by simp)
      have hg2 := forceResolve_good now stm unres st2 hfr hg
      rw [← h]
      exact fun t ht => ⟨hg2 t ht, rfl⟩

/-- Witness for C3: the dependent task with the clamped zero-length
duration produced from a concrete two-record input satisfies the
invariants. -/
theorem C3_duration_invariant_witness :
    1 ≤ (⟨"B", "b1", 19728, 1, none⟩ : Task).length_days ∧
    (⟨"B", "b1", 19728, 1, none⟩ : Task).end_ =
      (⟨"B", "b1", 19728, 1, none⟩ : Task).start +
        (⟨"B", "b1", 19728, 1, none⟩ : Task).length_days :=
  C3_duration_invariant 0
    [⟨"A", "a1", "2024-01-01", "5d", none⟩, ⟨"B", "b1", "after a1", "0d", none⟩]
    [⟨"A", "a1", 19723, 5, none⟩, ⟨"B", "b1", 19728, 1, none⟩] (by decide)
    ⟨"B", "b1", 19728, 1, none⟩ (by decide)

/-- C1 counterexample: the resolution phase raises on a record whose
length field is `2.5d` (the `int("2.5")` call is not guarded by
try/except), and on a record whose start field holds the date-shaped but
invalid token `2024-13-45` (`fromisoformat` raises). -/
theorem C1_counterexample :
    (resolveRecords 0 [⟨"A", "a1", "2024-01-01", "2.5d", none⟩]).isOk = false ∧
    (resolveRecords 0 [⟨"B", "b1", "2024-13-45", "3d", none⟩]).isOk = false :=
  ⟨by decide, by decide⟩

/-- C1 (amended): the resolution phase returns exactly one task per input
record and never raises, provided no record's length field has a trailing
`d`/`w` with a non-integer prefix and every date-shaped token occurring in
a start or length field is a valid calendar date; on inputs such as `2.5d`
or `2024-13-45` it raises `ValueError` instead. -/
theorem C1_resolution_total (now : Int) (records : List RawRec)
    (hok : ∀ r ∈ records, recOk r = true) :
    ∃ ts, resolveRecords now records = .ok ts ∧ ts.length = records.length := by
  obtain ⟨stm, unres, hpl, hcount, hok2⟩ := passLoop_spec now 10 ⟨[], []⟩ records hok
  obtain ⟨st2, hfr, hlen⟩ := forceResolve_ok now stm unres hok2
  refine ⟨st2.tasks, ?_, ?_⟩
  · unfold resolveRecords
    rw [hpl]
    simp [Bind.bind, Except.bind, hfr]
  · simp at hcount
    omega

/-- Witness for C1 on records exercising the date, dependency, dangling
reference and unparseable-length paths. -/
theorem C1_resolution_total_witness :
    ∃ ts,
      resolveRecords 5
          [⟨"A", "a1", "2024-01-01", "5d", none⟩,
           ⟨"B", "b1", "after a1", "2.5", none⟩,
           ⟨"C", "c1", "after missing", "1w", none⟩] = .ok ts ∧
      ts.length =
        [(⟨"A", "a1", "2024-01-01", "5d", none⟩ : RawRec),
         ⟨"B", "b1", "after a1", "2.5", none⟩,
         ⟨"C", "c1", "after missing", "1w", none⟩].length :=
  C1_resolution_total 5
    [⟨"A", "a1", "2024-01-01", "5d", none⟩,
     ⟨"B", "b1", "after a1", "2.5", none⟩,
     ⟨"C", "c1", "after missing", "1w", none⟩] (by decide)

/-- With an empty table, an `after` record (with no date-shaped token in
its start field) never resolves in a pass, whatever its reference. -/
theorem resolveStart_after_empty (now : Int) (r : RawRec)
    (h1 : dateSearch r.start_raw = none)
    (h2 : pyStartsWith (pylower r.start_raw) "after" = true) :
    resolveStart [] now r = .ok none := by
  unfold resolveStart
  rw [h1, h2]
  cases hsp : pySplit r.start_raw with
  | nil => simp
  | cons w t =>
    cases t with
    | nil => simp
    | cons p ps => simp [lookupT]

/-- C4: the pass loop stops as soon as a pass resolves nothing new (the
embedding's `passLoop` is structurally bounded by the `max_passes = 10`
fuel, so it terminates on every input); in particular a cyclic pair of
`after` records resolves in no pass, the loop breaks after the first
pass, and forced resolution produces exactly two tasks, each with the
fallback start `now` (there are no already-resolved tasks). -/
theorem C4_cyclic_pair_two_tasks (now : Int) (r1 r2 : RawRec) (v1 v2 : Int)
    (h1 : dateSearch r1.start_raw = none)
    (h2 : pyStartsWith (pylower r1.start_raw) "after" = true)
    (h3 : dateSearch r2.start_raw = none)
    (h4 : pyStartsWith (pylower r2.start_raw) "after" = true)
    (h5 : parse_length r1.len_raw now = .ok v1)
    (h6 : parse_length r2.len_raw now = .ok v2) :
    resolveRecords now [r1, r2] =
      .ok [mkTask r1.name r1.id now (max 1 v1) r1.section_,
           mkTask r2.name r2.id now (max 1 v2) r2.section_] := by
  have hs1 : stepRecord now ⟨[], []⟩ r1 = .ok (⟨[], []⟩, false) := by
    unfold stepRecord
    rw [show (⟨[], []⟩ : RState).table = [] from rfl, resolveStart_after_empty now r1 h1 h2]
    simp [Bind.bind, Except.bind]
  have hs2 : stepRecord now ⟨[], []⟩ r2 = .ok (⟨[], []⟩, false) := by
    unfold stepRecord
    rw [show (⟨[], []⟩ : RState).table = [] from rfl, resolveStart_after_empty now r2 h3 h4]
    simp [Bind.bind, Except.bind]
  have hpass : passOnce now ⟨[], []⟩ [r1, r2] [] false = .ok (⟨[], []⟩, [r1, r2], false) := by
    unfold passOnce
    rw [hs1]
    simp only [Bind.bind, Except.bind, Bool.false_eq_true, if_neg, List.nil_append]
    unfold passOnce
    rw [hs2]
    simp only [Bind.bind, Except.bind, Bool.false_eq_true, if_neg]
    rfl
  have hloop : passLoop now 10 ⟨[], []⟩ [r1, r2] = .ok (⟨[], []⟩, [r1, r2]) := by
    unfold passLoop
    rw [hpass]
    simp [Bind.bind, Except.bind]
  have hforce : forceResolve now ⟨[], []⟩ [r1, r2] =
      .ok ⟨[mkTask r1.name r1.id now (max 1 v1) r1.section_,
            mkTask r2.name r2.id now (max 1 v2) r2.section_], []⟩ := by
    unfold forceResolve
    simp only [List.isEmpty, Bool.false_eq_true, if_neg]
    have hfb : listMinD ((⟨[], []⟩ : RState).tasks.map Task.start) now = now := rfl
    rw [hfb]
    unfold forceGo
    rw [h5]
    simp only [Bind.bind, Except.bind]
    unfold forceGo
    rw [h6]
    simp only [Bind.bind, Except.bind]
    rfl
  unfold resolveRecords
  rw [hloop]
  simp [Bind.bind, Except.bind, hforce]

/-- Witness for C4: the concrete cyclic pair `A after b1` / `B after a1`
with `now = 42`. -/
theorem C4_cyclic_pair_two_tasks_witness :
    resolveRecords 42 [⟨"A", "a1", "after b1", "1d", none⟩,
                       ⟨"B", "b1", "after a1", "2d", none⟩] =
      .ok [mkTask "A" "a1" 42 (max 1 1) none, mkTask "B" "b1" 42 (max 1 2) none] :=
  C4_cyclic_pair_two_tasks 42 ⟨"A", "a1", "after b1", "1d", none⟩
    ⟨"B", "b1", "after a1", "2d", none⟩ 1 2
    (by decide) (by decide) (by decide) (by decide) (by decide) (by decide)

theorem strData_append (a b : String) : (a ++ b).data = a.data ++ b.data := by
  cases a
  cases b
  rfl

theorem pyStartsWith_bg_lbl (n : String) : pyStartsWith ("bg" ++ n) "lbl" = false := by
  cases n
  rfl

theorem pyStartsWith_sec_lbl (n : String) : pyStartsWith ("sec_" ++ n) "lbl" = false := by
  cases n
  rfl

theorem pyStartsWith_task_lbl (n : String) : pyStartsWith ("task" ++ n) "lbl" = false := by
  cases n
  rfl

theorem pyStartsWith_tick_lbl (n : String) : pyStartsWith ("tick" ++ n) "lbl" = false := by
  cases n
  rfl

theorem pyStartsWith_lbl_lbl (n : String) : pyStartsWith ("lbl" ++ n) "lbl" = true := by
  cases n
  rfl

theorem tickLineCell_edge (dw m bot d : Int) : (tickLineCell dw m bot d).edge = true := rfl

theorem tickLabelCell_edge (dw m md th d : Int) :
    (tickLabelCell dw m md th d).edge = false := rfl

theorem tickLineCell_id (dw m bot d : Int) :
    (tickLineCell dw m bot d).id = "tick" ++ toString (d + 1) := rfl

theorem tickLabelCell_id (dw m md th d : Int) :
    (tickLabelCell dw m md th d).id = "lbl" ++ toString (d + 1) := rfl

/-- The section background / label loop emits no edge cells. -/
theorem sectionCellsGo_filter_edge (tasks : List Task) (dw th m td : Int) :
    ∀ (ss : List (Option String)) (si ri : Nat),
      (sectionCellsGo tasks dw th m td ss si ri).filter (fun c => c.edge) = [] := by
  intro ss
  induction ss with
  | nil => intro si ri; rfl
  | cons s rest ih =>
    intro si ri
    unfold sectionCellsGo
    cases hemp : (sectionTasks tasks s).isEmpty with
    | true =>
      rw [if_pos hemp]
      exact ih _ _
    | false =>
      rw [if_neg (by simp [hemp])]
      simp only [List.filter_cons]
      simpa using ih (si + 1) (ri + (sectionTasks tasks s).length)

/-- The section background / label loop emits no `lbl`-prefixed cells. -/
theorem sectionCellsGo_filter_lbl (tasks : List Task) (dw th m td : Int) :
    ∀ (ss : List (Option String)) (si ri : Nat),
      (sectionCellsGo tasks dw th m td ss si ri).filter
        (fun c => pyStartsWith c.id "lbl") = [] := by
  intro ss
  induction ss with
  | nil => intro si ri; rfl
  | cons s rest ih =>
    intro si ri
    unfold sectionCellsGo
    cases hemp : (sectionTasks tasks s).isEmpty with
    | true =>
      rw [if_pos hemp]
      exact ih _ _
    | false =>
      rw [if_neg (by simp [hemp])]
      simp only [List.filter_cons, pyStartsWith_bg_lbl, pyStartsWith_sec_lbl]
      simpa [pyStartsWith_bg_lbl, pyStartsWith_sec_lbl] using
        ih (si + 1) (ri + (sectionTasks tasks s).length)

/-- The task bar loop emits no edge cells. -/
theorem taskCellsGo_filter_edge (dw th m md : Int) :
    ∀ (l : List Task) (ri : Nat),
      (taskCellsGo dw th m md l ri).filter (fun c => c.edge) = [] := by
  intro l
  induction l with
  | nil => intro ri; rfl
  | cons t rest ih =>
    intro ri
    unfold taskCellsGo
    simp [List.filter_cons, ih]

/-- The task bar loop emits no `lbl`-prefixed cells. -/
theorem taskCellsGo_filter_lbl (dw th m md : Int) :
    ∀ (l : List Task) (ri : Nat),
      (taskCellsGo dw th m md l ri).filter (fun c => pyStartsWith c.id "lbl") = [] := by
  intro l
  induction l with
  | nil => intro ri; rfl
  | cons t rest ih =>
    intro ri
    unfold taskCellsGo
    simp [List.filter_cons, ih, pyStartsWith_task_lbl]

/-- The edge cells of the tick loop are exactly one tick line per offset. -/
theorem ticksGo_filter_edge (dw m md th bot : Int) :
    ∀ (ds : List Int) (last : Int),
      (ticksGo dw m md th bot ds last).filter (fun c => c.edge) =
        ds.map (tickLineCell dw m bot) := by
  intro ds
  induction ds with
  | nil => intro last; rfl
  | cons d rest ih =>
    intro last
    unfold ticksGo
    by_cases hc : LABEL_MIN_GAP ≤ m + SECTION_COL_WIDTH + d * dw - last
    · simp [hc, List.filter_cons, tickLineCell_edge, tickLabelCell_edge, ih]
    · simp [hc, List.filter_cons, tickLineCell_edge, ih]

/-- The `lbl` cells of the tick loop are exactly the labels kept by the
greedy rule. -/
theorem ticksGo_filter_lbl (dw m md th bot : Int) :
    ∀ (ds : List Int) (last : Int),
      (ticksGo dw m md th bot ds last).filter (fun c => pyStartsWith c.id "lbl") =
        (greedyLabelOffsets dw m ds last).map (tickLabelCell dw m md th) := by
  intro ds
  induction ds with
  | nil => intro last; rfl
  | cons d rest ih =>
    intro last
    unfold ticksGo greedyLabelOffsets
    by_cases hc : LABEL_MIN_GAP ≤ m + SECTION_COL_WIDTH + d * dw - last
    · simp [hc, List.filter_cons, tickLineCell_id, tickLabelCell_id,
        pyStartsWith_tick_lbl, pyStartsWith_lbl_lbl, ih]
    · simp [hc, List.filter_cons, tickLineCell_id, pyStartsWith_tick_lbl, ih]

/-- The edge cells of the whole layout are exactly the tick lines, one per
multiple of `TICK_INTERVAL` in `[0, total_days)`. -/
theorem drawioCells_filter_edge (tasks : List Task) (dw th m : Int) :
    (drawioCells tasks dw th m).filter (fun c => c.edge) =
      (pyRange0 (totalDaysOf tasks) TICK_INTERVAL).map
        (tickLineCell dw m (tickBottom tasks th m)) := by
  unfold drawioCells
  simp only [List.filter_cons, List.filter_append]
  rw [sectionCellsGo_filter_edge, taskCellsGo_filter_edge, ticksGo_filter_edge]
  simp

/-- The `lbl` cells of the whole layout are exactly the greedily kept tick
labels. -/
theorem drawioCells_filter_lbl (tasks : List Task) (dw th m : Int) :
    (drawioCells tasks dw th m).filter (fun c => pyStartsWith c.id "lbl") =
      (greedyLabelOffsets dw m (pyRange0 (totalDaysOf tasks) TICK_INTERVAL)
          (-1000000)).map (tickLabelCell dw m (minStartD tasks) th) := by
  unfold drawioCells
  simp only [List.filter_cons, List.filter_append]
  rw [sectionCellsGo_filter_lbl, taskCellsGo_filter_lbl, ticksGo_filter_lbl]
  simp [show pyStartsWith "0" "lbl" = false from rfl,
        show pyStartsWith "1" "lbl" = false from rfl]

theorem foldl_min_start_le (l : List Task) :
    ∀ a : Int, l.foldl (fun x y => min x y.start) a ≤ a := by
  induction l with
  | nil => intro a; exact le_refl a
  | cons t rest ih =>
    intro a
    simp only [List.foldl_cons]
    exact le_trans (ih (min a t.start)) (min_le_left a t.start)

theorem le_foldl_max_end (l : List Task) :
    ∀ a : Int, a ≤ l.foldl (fun x y => max x y.end_) a := by
  induction l with
  | nil => intro a; exact le_refl a
  | cons t rest ih =>
    intro a
    simp only [List.foldl_cons]
    exact le_trans (le_max_left a t.end_) (ih (max a t.end_))

theorem minStartD_cons_le (t : Task) (r : List Task) : minStartD (t :: r) ≤ t.start :=
  foldl_min_start_le r t.start

theorem le_maxEndD_cons (t : Task) (r : List Task) : t.end_ ≤ maxEndD (t :: r) :=
  le_foldl_max_end r t.end_

/-- With at least one task of positive duration, the timeline spans at
least one day. -/
theorem one_le_totalDaysOf (tasks : List Task) (hne : tasks ≠ [])
    (hdur : ∀ t ∈ tasks, 1 ≤ t.length_days) : 1 ≤ totalDaysOf tasks := by
  cases tasks with
  | nil => exact absurd rfl hne
  | cons t r =>
    have h1 := minStartD_cons_le t r
    have h2 := le_maxEndD_cons t r
    have h3 := hdur t (List.mem_cons_self t r)
    unfold totalDaysOf
    unfold Task.end_ at h2
    omega

theorem sectionOrder_sub (l : List Task) :
    ∀ (acc : List (Option String)) (s : Option String), s ∈ acc →
      s ∈ l.foldl (fun acc t => if t.section_ ∈ acc then acc else acc ++ [t.section_]) acc := by
  induction l with
  | nil => intro acc s h; exact h
  | cons t rest ih =>
    intro acc s h
    simp only [List.foldl_cons]
    by_cases hc : t.section_ ∈ acc
    · rw [if_pos hc]; exact ih acc s h
    · rw [if_neg hc]; exact ih _ s (List.mem_append_left _ h)

theorem sectionOrder_mem_aux (l : List Task) :
    ∀ (acc : List (Option String)) (t : Task), t ∈ l →
      t.section_ ∈
        l.foldl (fun acc t => if t.section_ ∈ acc then acc else acc ++ [t.section_]) acc := by
  induction l with
  | nil => intro acc t h; cases h
  | cons u rest ih =>
    intro acc t h
    simp only [List.foldl_cons]
    rcases List.mem_cons.mp h with rfl | hm
    · by_cases hc : t.section_ ∈ acc
      · rw [if_pos hc]; exact sectionOrder_sub rest acc _ hc
      · rw [if_neg hc]
        exact sectionOrder_sub rest _ _ (List.mem_append_right _ (List.mem_singleton_self _))
    · by_cases hc : u.section_ ∈ acc
      · rw [if_pos hc]; exact ih acc t hm
      · rw [if_neg hc]; exact ih _ t hm

/-- Every task's section tag occurs in the first-seen section order. -/
theorem sectionOrder_mem (tasks : List Task) (t : Task) (h : t ∈ tasks) :
    t.section_ ∈ sectionOrder tasks := sectionOrder_mem_aux tasks [] t h

/-- Every task occurs among the flattened rows. -/
theorem mem_rowsOf (tasks : List Task) (t : Task) (h : t ∈ tasks) : t ∈ rowsOf tasks := by
  unfold rowsOf
  refine List.mem_flatMap.mpr ⟨t.section_, sectionOrder_mem tasks t h, ?_⟩
  unfold sectionTasks
  simp [List.mem_filter, h]

theorem rowsOf_ne_nil (tasks : List Task) (h : tasks ≠ []) : rowsOf tasks ≠ [] := by
  cases tasks with
  | nil => exact absurd rfl h
  | cons t r => exact List.ne_nil_of_mem (mem_rowsOf _ t (List.mem_cons_self t r))

/-- With a nonempty row list and a nonnegative row height, a tick's
bottom end sits at the bottom of the last row. -/
theorem tickBottom_eq (tasks : List Task) (th m : Int)
    (h : rowsOf tasks ≠ []) (hth : 0 ≤ th) :
    tickBottom tasks th m = m + ((rowsOf tasks).length : Int) * th := by
  have hn : 0 < (rowsOf tasks).length := List.length_pos.mpr h
  unfold tickBottom rowsHeightOf
  rw [if_pos hn]
  simp only [ROW_GAP, add_zero, sub_zero]
  rcases eq_or_lt_of_le hth with h0 | hpos
  · rw [← h0]
    simp
  · have hn' : (0 : Int) < ((rowsOf tasks).length : Int) := by exact_mod_cast hn
    rw [if_pos (mul_pos hn' hpos)]

/-- A positive timeline always carries the tick at day offset 0. -/
theorem pyRange0_cons_zero (stop : Int) (h : 1 ≤ stop) :
    ∃ rest, pyRange0 stop TICK_INTERVAL = 0 :: rest := by
  unfold pyRange0 TICK_INTERVAL
  have h2 : 1 ≤ (stop.toNat + 7 - 1) / 7 := by omega
  obtain ⟨j, hj⟩ : ∃ j, (stop.toNat + 7 - 1) / 7 = j + 1 := ⟨(stop.toNat + 7 - 1) / 7 - 1, by omega⟩
  rw [hj, List.range_succ_eq_map]
  refine ⟨(List.map Nat.succ (List.range j)).map (fun k => ((k * 7 : Nat) : Int)), ?_⟩
  simp

/-- Every offset kept by the greedy rule sits at least `LABEL_MIN_GAP` to
the right of the starting reference position. -/
theorem greedyLabelOffsets_ge (dw m : Int) :
    ∀ (ds : List Int) (last d : Int), d ∈ greedyLabelOffsets dw m ds last →
      last + LABEL_MIN_GAP ≤ m + SECTION_COL_WIDTH + d * dw := by
  intro ds
  induction ds with
  | nil => intro last d hd; simp [greedyLabelOffsets] at hd
  | cons d0 rest ih =>
    intro last d hd
    unfold greedyLabelOffsets at hd
    by_cases hc : LABEL_MIN_GAP ≤ m + SECTION_COL_WIDTH + d0 * dw - last
    · rw [if_pos hc] at hd
      rcases List.mem_cons.mp hd with rfl | hm
      · omega
      · have h2 := ih _ _ hm
        have hgap : (0 : Int) < LABEL_MIN_GAP := by decide
        omega
    · rw [if_neg hc] at hd
      exact ih _ _ hd

/-- The x positions of the labels kept by the greedy rule are pairwise at
least `LABEL_MIN_GAP` apart. -/
theorem greedyLabelOffsets_pairwise (dw m : Int) :
    ∀ (ds : List Int) (last : Int),
      List.Pairwise (fun a b => a + LABEL_MIN_GAP ≤ b)
        ((greedyLabelOffsets dw m ds last).map
          (fun d => m + SECTION_COL_WIDTH + d * dw)) := by
  intro ds
  induction ds with
  | nil => intro last; simp [greedyLabelOffsets]
  | cons d0 rest ih =>
    intro last
    unfold greedyLabelOffsets
    by_cases hc : LABEL_MIN_GAP ≤ m + SECTION_COL_WIDTH + d0 * dw - last
    · rw [if_pos hc]
      simp only [List.map_cons]
      refine List.Pairwise.cons ?_ (ih _)
      intro b hb
      obtain ⟨d, hd, rfl⟩ := List.mem_map.mp hb
      exact greedyLabelOffsets_ge dw m rest _ d hd
    · rw [if_neg hc]
      exact ih last

/-- With a nonnegative margin, the first tick's label (offset 0) is
always kept: its position clears the `-1000000` sentinel. -/
theorem greedyLabelOffsets_first (dw m : Int) (r : List Int) (hm : 0 ≤ m) :
    ∃ rest, greedyLabelOffsets dw m (0 :: r) (-1000000) = 0 :: rest := by
  unfold greedyLabelOffsets
  rw [if_pos]
  · exact ⟨_, rfl⟩
  · have : (LABEL_MIN_GAP : Int) = 48 := rfl
    have h2 : (SECTION_COL_WIDTH : Int) = 120 := rfl
    simp only [this, h2, zero_mul, add_zero]
    omega

/-- C8: for a non-empty task list (with the §3 duration invariant and a
nonnegative row height) the layout emits exactly one dashed tick edge per
multiple of `TICK_INTERVAL` in `[0, total_days)` with
`total_days = (max end - min start) + 1`, each spanning from the top of
the row area (`y = margin`) down to the bottom of the last row
(`y = margin + rows * task_height`); even a single task yields the tick
at offset 0 as the first edge. -/
theorem C8_tick_lines (tasks : List Task) (day_width task_height margin : Int)
    (hne : tasks ≠ []) (hth : 0 ≤ task_height)
    (hdur : ∀ t ∈ tasks, 1 ≤ t.length_days) :
    ∃ cells, build_drawio_xml tasks day_width task_height margin = .ok cells ∧
      cells.filter (fun c => c.edge) =
        (pyRange0 (maxEndD tasks - minStartD tasks + 1) TICK_INTERVAL).map
          (tickLineCell day_width margin
            (margin + ((rowsOf tasks).length : Int) * task_height)) ∧
      ∃ rest, cells.filter (fun c => c.edge) =
        tickLineCell day_width margin
            (margin + ((rowsOf tasks).length : Int) * task_height) 0 :: rest := by
  have hbot := tickBottom_eq tasks task_height margin (rowsOf_ne_nil tasks hne) hth
  have hfe := drawioCells_filter_edge tasks day_width task_height margin
  rw [hbot] at hfe
  have htd : totalDaysOf tasks = maxEndD tasks - minStartD tasks + 1 := rfl
  refine ⟨drawioCells tasks day_width task_height margin, ?_, ?_, ?_⟩
  · unfold build_drawio_xml
    cases tasks with
    | nil => exact absurd rfl hne
    | cons t r => rfl
  · rw [hfe, htd]
  · obtain ⟨rest, hr⟩ :=
      pyRange0_cons_zero (totalDaysOf tasks) (one_le_totalDaysOf tasks hne hdur)
    rw [htd] at hr
    rw [hfe, htd, hr]
    exact ⟨rest.map (tickLineCell day_width margin
      (margin + ((rowsOf tasks).length : Int) * task_height)), by simp⟩

/-- Witness for C8 at a single concrete task. -/
theorem C8_tick_lines_witness :
    ∃ cells, build_drawio_xml [⟨"A", "a1", 0, 1, none⟩] 20 20 40 = .ok cells ∧
      cells.filter (fun c => c.edge) =
        (pyRange0 (maxEndD [⟨"A", "a1", 0, 1, none⟩] -
            minStartD [⟨"A", "a1", 0, 1, none⟩] + 1) TICK_INTERVAL).map
          (tickLineCell 20 40
            (40 + ((rowsOf [⟨"A", "a1", 0, 1, none⟩]).length : Int) * 20)) ∧
      ∃ rest, cells.filter (fun c => c.edge) =
        tickLineCell 20 40
            (40 + ((rowsOf [⟨"A", "a1", 0, 1, none⟩]).length : Int) * 20) 0 :: rest :=
  C8_tick_lines [⟨"A", "a1", 0, 1, none⟩] 20 20 40 (by decide) (by decide) (by decide)

/-- C9: the layout's tick labels are exactly the ones kept by the greedy
left-to-right rule (a label is kept exactly when its x position is at
least `LABEL_MIN_GAP` to the right of the last kept label's position);
with a nonnegative margin the first tick's label is always kept, and the
x positions of the kept labels are pairwise at least `LABEL_MIN_GAP`
apart. -/
theorem C9_label_spacing (tasks : List Task) (day_width task_height margin : Int)
    (hne : tasks ≠ []) (hm : 0 ≤ margin)
    (hdur : ∀ t ∈ tasks, 1 ≤ t.length_days) :
    ∃ cells, build_drawio_xml tasks day_width task_height margin = .ok cells ∧
      cells.filter (fun c => pyStartsWith c.id "lbl") =
        (greedyLabelOffsets day_width margin
            (pyRange0 (totalDaysOf tasks) TICK_INTERVAL) (-1000000)).map
          (tickLabelCell day_width margin (minStartD tasks) task_height) ∧
      (∃ rest, greedyLabelOffsets day_width margin
          (pyRange0 (totalDaysOf tasks) TICK_INTERVAL) (-1000000) = 0 :: rest) ∧
      List.Pairwise (fun a b => a + LABEL_MIN_GAP ≤ b)
        ((greedyLabelOffsets day_width margin
            (pyRange0 (totalDaysOf tasks) TICK_INTERVAL) (-1000000)).map
          (fun d => margin + SECTION_COL_WIDTH + d * day_width)) := by
  refine ⟨drawioCells tasks day_width task_height margin, ?_, ?_, ?_, ?_⟩
  · unfold build_drawio_xml
    cases tasks with
    | nil => exact absurd rfl hne
    | cons t r => rfl
  · exact drawioCells_filter_lbl tasks day_width task_height margin
  · obtain ⟨rest, hr⟩ :=
      pyRange0_cons_zero (totalDaysOf tasks) (one_le_totalDaysOf tasks hne hdur)
    rw [hr]
    exact greedyLabelOffsets_first day_width margin rest hm
  · exact greedyLabelOffsets_pairwise day_width margin _ _

/-- Witness for C9 at a concrete two-task input. -/
theorem C9_label_spacing_witness :
    ∃ cells, build_drawio_xml [⟨"A", "a1", 19723, 5, none⟩, ⟨"B", "b1", 19728, 3, none⟩]
        20 20 40 = .ok cells ∧
      cells.filter (fun c => pyStartsWith c.id "lbl") =
        (greedyLabelOffsets 20 40
            (pyRange0 (totalDaysOf [⟨"A", "a1", 19723, 5, none⟩, ⟨"B", "b1", 19728, 3, none⟩])
              TICK_INTERVAL) (-1000000)).map
          (tickLabelCell 20 40
            (minStartD [⟨"A", "a1", 19723, 5, none⟩, ⟨"B", "b1", 19728, 3, none⟩]) 20) ∧
      (∃ rest, greedyLabelOffsets 20 40
          (pyRange0 (totalDaysOf [⟨"A", "a1", 19723, 5, none⟩, ⟨"B", "b1", 19728, 3, none⟩])
            TICK_INTERVAL) (-1000000) = 0 :: rest) ∧
      List.Pairwise (fun a b => a + LABEL_MIN_GAP ≤ b)
        ((greedyLabelOffsets 20 40
            (pyRange0 (totalDaysOf [⟨"A", "a1", 19723, 5, none⟩, ⟨"B", "b1", 19728, 3, none⟩])
              TICK_INTERVAL) (-1000000)).map
          (fun d => 40 + SECTION_COL_WIDTH + d * 20)) :=
  C9_label_spacing [⟨"A", "a1", 19723, 5, none⟩, ⟨"B", "b1", 19728, 3, none⟩] 20 20 40
    (by decide) (by decide) (by decide)

end Mermaid
